import Mathlib

/-!
Verification of the kubernetes-phase-rules repository.

The development shallowly embeds the two core components:

* `rules/phase_rule.go` — the phase-rule engine: `ConditionEquals`,
  `ConditionsAll`, `ConditionsAny`, `NewPhaseRule`, and the two
  `Satisfies` implementations (`phaseRuleAll` and `phaseRuleAny`).
  Go maps keyed by condition type are embedded as association lists with
  unique keys, built by exactly the loop of `NewPhaseRule`; condition
  statuses (a Go string type) are embedded as `String`.

* `conditions/conditions.go` — the `StatusManager`: `SetCondition` and
  `SetConditions`, including the phase-recompute loop and the final
  status patch.  The external patch call is represented by a parameter
  holding the outcome the collaborator would return (`none` = success),
  and the manager state (condition list plus object phase, observed
  generation and generation) is threaded explicitly.  The Bool `changed`
  that the Go code keeps internally is exposed in the result record,
  together with whether the patch call was reached and its outcome.
-/

namespace KPR

/-- Embeds `metav1.Condition` (the fields used by this repository):
type, status, reason, message, `LastTransitionTime` (as an abstract
timestamp) and `ObservedGeneration`. -/
structure Condition where
  type : String
  status : String
  reason : String
  message : String
  lastTransitionTime : Nat
  observedGeneration : Int
deriving DecidableEq

/-- Embeds the constant `PhaseUnknown` of `rules/phase_rule.go`. -/
def PhaseUnknown : String := "Unknown"

/-- Embeds `metav1.ConditionTrue`. -/
def ConditionTrue : String := "True"

/-- Embeds `metav1.ConditionFalse`. -/
def ConditionFalse : String := "False"

/-- Embeds `metav1.ConditionUnknown`. -/
def ConditionUnknown : String := "Unknown"

/-- Embeds the `conditionMatcher` struct of `rules/phase_rule.go`: the
flattened matcher list together with the all/any flag.  A
`ConditionEqualsMatcher` closure returning a fixed pair is embedded as
the pair itself. -/
structure conditionMatcher where
  matchers : List (String × String)
  all : Bool

/-- Embeds `ConditionEquals`: one matcher per allowed status, all for
the same condition type. -/
def ConditionEquals (condition : String) (statuses : List String) : List (String × String) :=
  statuses.map (fun s => (condition, s))

/-- Embeds the unexported helper `conditions` of `rules/phase_rule.go`,
which flattens the matcher lists in order. -/
def conditions (all : Bool) (matcherLists : List (List (String × String))) : conditionMatcher :=
  { matchers := matcherLists.foldl (fun acc l => acc ++ l) [], all := all }

/-- Embeds `ConditionsAll`. -/
def ConditionsAll (matcherLists : List (List (String × String))) : conditionMatcher :=
  conditions true matcherLists

/-- Embeds `ConditionsAny`. -/
def ConditionsAny (matcherLists : List (List (String × String))) : conditionMatcher :=
  conditions false matcherLists

/-- One step of the map-building loop of `NewPhaseRule`: append the
status to the entry for the given condition type, creating the entry
when absent (Go: `conditionToStatusMap[condition] = append(...)`). -/
def appendStatus : List (String × List String) → String → String → List (String × List String)
  | [], c, s => [(c, [s])]
  | (c', ss) :: rest, c, s =>
      if c' == c then (c', ss ++ [s]) :: rest
      else (c', ss) :: appendStatus rest c s

/-- Embeds the map-building loop of `NewPhaseRule` (and the
`buildConditionMap` helper of the JavaScript rewrite): fold every
(condition, status) matcher into a type-keyed map, embedded as an
association list with unique keys. -/
def buildConditionMap (matchers : List (String × String)) : List (String × List String) :=
  matchers.foldl (fun m p => appendStatus m p.1 p.2) []

/-- Embeds the two concrete rule structs `phaseRuleAll` / `phaseRuleAny`
of `rules/phase_rule.go`; the `all` flag records which of the two
`NewPhaseRule` returned. -/
structure PhaseRule where
  phase : String
  conditions : List (String × List String)
  all : Bool
deriving DecidableEq

/-- Embeds `NewPhaseRule`. -/
def NewPhaseRule (phase : String) (matcher : conditionMatcher) : PhaseRule :=
  { phase := phase, conditions := buildConditionMap matcher.matchers, all := matcher.all }

/-- The map built over the supplied condition list by
`phaseRuleAll.Satisfies` (Go: `currentConditionToStatusMap`), read back
at one type.  A later duplicate type overwrites an earlier one, exactly
as repeated Go map assignment does. -/
def currentStatus (conds : List Condition) (t : String) : Option String :=
  conds.foldl (fun acc c => if c.type == t then some c.status else acc) none

/-- The body of the requirements loop of `phaseRuleAll.Satisfies` for
one required (type, allowed statuses) entry: the type must be present
and its current status must be among the allowed ones. -/
def checkEntry (conds : List Condition) (pr : String × List String) : Bool :=
  match currentStatus conds pr.1 with
  | some st => pr.2.contains st
  | none => false

/-- Embeds `phaseRuleAll.Satisfies`: every required entry of the rule
map must pass `checkEntry` (the Go loop returns false at the first
failing entry; the conjunction is order-independent). -/
def satisfiesAll (m : List (String × List String)) (conds : List Condition) : Bool :=
  m.all (checkEntry conds)

/-- The body of the loop of `phaseRuleAny.Satisfies` for one supplied
condition: its type must be required by the rule and its status must be
among the allowed ones. -/
def checkFact (m : List (String × List String)) (c : Condition) : Bool :=
  match List.lookup c.type m with
  | some ss => ss.contains c.status
  | none => false

/-- Embeds `phaseRuleAny.Satisfies`: some supplied condition must pass
`checkFact`. -/
def satisfiesAny (m : List (String × List String)) (conds : List Condition) : Bool :=
  conds.any (checkFact m)

/-- Embeds the `Satisfies` dispatch: `NewPhaseRule` returns a
`phaseRuleAll` or a `phaseRuleAny` according to the matcher flag. -/
def PhaseRule.Satisfies (r : PhaseRule) (conds : List Condition) : Bool :=
  if r.all then satisfiesAll r.conditions conds else satisfiesAny r.conditions conds

/-- Embeds `ComputePhase` of both rule structs. -/
def PhaseRule.ComputePhase (r : PhaseRule) (conds : List Condition) : String :=
  if r.Satisfies conds then r.phase else PhaseUnknown

/-- Embeds the first-match loop shared by `StatusManager.SetConditions`
and `StatusManager.SetCondition` in `conditions/conditions.go` (and
`computePhaseFromRules` of the JavaScript rewrite): the phase of the
first rule that is satisfied, or `PhaseUnknown` when none is. -/
def computePhaseFromRules (rules : List PhaseRule) (conds : List Condition) : String :=
  match rules with
  | [] => PhaseUnknown
  | r :: rest => if r.Satisfies conds then r.phase else computePhaseFromRules rest conds

/-- Embeds the target entity as seen through the `Object2` interface:
the phase field, the observed-generation field, and the (read-only for
the manager) metadata generation. -/
structure ObjectState where
  phase : String
  observedGeneration : Int
  generation : Int
deriving DecidableEq

/-- Embeds the state owned by a `StatusManager`: the canonical
condition list and the object. -/
structure ManagerState where
  conditions : List Condition
  object : ObjectState
deriving DecidableEq

/-- Embeds the `Condition` input struct of `conditions/conditions.go`
(`LastTransitionTime` and `ObservedGeneration` are filled in by the
manager). -/
structure ConditionInput where
  type : String
  status : String
  reason : String
  message : String
deriving DecidableEq

/-- Embeds `meta.FindStatusCondition`: the first condition with the
given type. -/
def findCondition : List Condition → String → Option Condition
  | [], _ => none
  | c :: rest, t => if c.type == t then some c else findCondition rest t

/-- Replace the first condition with the given type (the Go library
mutates the found condition in place). -/
def replaceFirst : List Condition → String → Condition → List Condition
  | [], _, _ => []
  | c :: rest, t, repl => if c.type == t then repl :: rest else c :: replaceFirst rest t repl

/-- Modelled from the spec: the replacement that the upsert helper
(`meta.SetStatusCondition` from `k8s.io/apimachinery`, called by
`conditions/conditions.go` but not part of this repository) writes over
an existing condition of the same type — status, reason, message and
observed generation are overwritten, and the transition time is
refreshed only when the status actually differs (spec section 4.3
step 1). -/
def updatedCondition (existing n : Condition) : Condition :=
  { type := existing.type
    status := n.status
    reason := n.reason
    message := n.message
    lastTransitionTime :=
      if existing.status == n.status then existing.lastTransitionTime
      else n.lastTransitionTime
    observedGeneration := n.observedGeneration }

/-- Modelled from the spec: the changed flag the upsert helper reports
for an existing condition — true when status, reason, message or
observed generation differs, false when nothing differs (spec section
4.3 step 1, no-op case). -/
def conditionChanged (existing n : Condition) : Bool :=
  (existing.status != n.status) || (existing.reason != n.reason)
    || (existing.message != n.message)
    || (existing.observedGeneration != n.observedGeneration)

/-- Modelled from the spec: `meta.SetStatusCondition` from
`k8s.io/apimachinery` is called by `conditions/conditions.go` but is not
part of this repository.  Per spec section 4.3 step 1: insert when no
condition of the type exists and mark changed; when one exists, write
`updatedCondition` over it in place and report `conditionChanged`.  The
caller always passes a fresh timestamp, so the zero-timestamp special
case of the library never fires. -/
def setStatusCondition (conds : List Condition) (n : Condition) : List Condition × Bool :=
  match findCondition conds n.type with
  | none => (conds ++ [n], true)
  | some existing =>
      (replaceFirst conds n.type (updatedCondition existing n), conditionChanged existing n)

/-- Result of one `SetCondition` / `SetConditions` call: the new
manager state, the internal changed flag, whether the status patch was
reached, and the value returned to the caller (the patch outcome when
the patch was reached, otherwise `none`, i.e. the Go `nil` error). -/
structure SetResult where
  state : ManagerState
  changed : Bool
  patchCalled : Bool
  err : Option String
deriving DecidableEq

/-- Embeds the shared tail of `SetCondition` and `SetConditions`: when
something changed, recompute the phase over the new condition list,
write phase and observed generation onto the object, and perform the
status patch, returning its outcome; otherwise return `nil` without
recomputing or patching. -/
def applyChange (rules : List PhaseRule) (s : ManagerState) (p : List Condition × Bool)
    (patchErr : Option String) : SetResult :=
  if p.2 then
    { state :=
        { conditions := p.1
          object :=
            { s.object with
                phase := computePhaseFromRules rules p.1
                observedGeneration := s.object.generation } }
      changed := true
      patchCalled := true
      err := patchErr }
  else
    { state := { s with conditions := p.1 }
      changed := false
      patchCalled := false
      err := none }

/-- Embeds `StatusManager.SetCondition`: one upsert, then the shared
recompute-and-patch tail. -/
def setCondition (rules : List PhaseRule) (s : ManagerState) (t st rsn msg : String)
    (now : Nat) (patchErr : Option String) : SetResult :=
  applyChange rules s
    (setStatusCondition s.conditions
      { type := t, status := st, reason := rsn, message := msg,
        lastTransitionTime := now, observedGeneration := s.object.generation })
    patchErr

/-- Embeds `StatusManager.SetConditions`: the upsert loop threads the
condition list, but the changed flag of each iteration overwrites the
previous one (Go: `changed = meta.SetStatusCondition(...)` inside the
loop), exactly as in the source; then the shared tail. -/
def setConditions (rules : List PhaseRule) (s : ManagerState) (inputs : List ConditionInput)
    (now : Nat) (patchErr : Option String) : SetResult :=
  applyChange rules s
    (inputs.foldl
      (fun acc inp =>
        setStatusCondition acc.1
          { type := inp.type, status := inp.status, reason := inp.reason,
            message := inp.message, lastTransitionTime := now,
            observedGeneration := s.object.generation })
      (s.conditions, false))
    patchErr

/-- Sample state: one condition `A=True` with reason `r` and message
`m`, observed at generation 1, object at generation 1. -/
def sampleBatchState : ManagerState :=
  { conditions := [⟨"A", "True", "r", "m", 0, 1⟩]
    object := { phase := "p", observedGeneration := 1, generation := 1 } }

/-- Sample state: empty condition list, object at generation 0. -/
def sampleEmptyState : ManagerState :=
  { conditions := [], object := { phase := "Unknown", observedGeneration := 0, generation := 0 } }

/-- Sample state: one condition `A=True` with transition timestamp 7. -/
def sampleMetaState : ManagerState :=
  { conditions := [⟨"A", "True", "r", "m", 7, 0⟩]
    object := { phase := "p", observedGeneration := 0, generation := 0 } }

/-- Sample rule with label `X` that matches everything. -/
def sampleRuleX : PhaseRule := NewPhaseRule "X" (ConditionsAll [])

/-- Sample rule with label `Y` that matches everything. -/
def sampleRuleY : PhaseRule := NewPhaseRule "Y" (ConditionsAll [])

lemma checkEntry_eq_true_iff (conds : List Condition) (pr : String × List String) :
    checkEntry conds pr = true ↔
      ∃ st, currentStatus conds pr.1 = some st ∧ pr.2.contains st = true := by
  unfold checkEntry
  cases hc : currentStatus conds pr.1 with
  | none => simp
  | some st =>
      simp only [Option.some.injEq]
      constructor
      · intro h; exact ⟨st, rfl, h⟩
      · rintro ⟨st2, hst2, h2⟩; rw [hst2]; exact h2

lemma satisfiesAll_eq_true_iff (m : List (String × List String)) (conds : List Condition) :
    satisfiesAll m conds = true ↔
      ∀ pr ∈ m, ∃ st, currentStatus conds pr.1 = some st ∧ pr.2.contains st = true := by
  unfold satisfiesAll
  rw [List.all_eq_true]
  constructor
  · intro h pr hpr
    exact (checkEntry_eq_true_iff conds pr).mp (h pr hpr)
  · intro h pr hpr
    exact (checkEntry_eq_true_iff conds pr).mpr (h pr hpr)

lemma satisfiesAny_nil (conds : List Condition) : satisfiesAny [] conds = false := by
  induction conds with
  | nil => rfl
  | cons c rest ih =>
      simp only [satisfiesAny, List.any_cons] at ih ⊢
      rw [ih]
      rfl

lemma computePhaseFromRules_mem (rules : List PhaseRule) (conds : List Condition) :
    computePhaseFromRules rules conds = PhaseUnknown ∨
      ∃ r ∈ rules, computePhaseFromRules rules conds = r.phase := by
  induction rules with
  | nil => left; rfl
  | cons r rest ih =>
      cases hb : r.Satisfies conds with
      | true =>
          right
          exact ⟨r, List.mem_cons_self r rest, by simp [computePhaseFromRules, hb]⟩
      | false =>
          rw [show computePhaseFromRules (r :: rest) conds = computePhaseFromRules rest conds by
            simp [computePhaseFromRules, hb]]
          rcases ih with h | ⟨q, hq, hval⟩
          · left; exact h
          · right; exact ⟨q, List.mem_cons_of_mem r hq, hval⟩

lemma computePhaseFromRules_none (rules : List PhaseRule) (conds : List Condition)
    (h : ∀ q ∈ rules, q.Satisfies conds = false) :
    computePhaseFromRules rules conds = PhaseUnknown := by
  induction rules with
  | nil => rfl
  | cons r rest ih =>
      have hr := h r (List.mem_cons_self r rest)
      simp only [computePhaseFromRules, hr, if_false]
      exact ih (fun q hq => h q (List.mem_cons_of_mem r hq))

lemma findCondition_append_none (conds : List Condition) (n : Condition)
    (h : findCondition conds n.type = none) :
    findCondition (conds ++ [n]) n.type = some n := by
  induction conds with
  | nil =>
      simp [findCondition]
  | cons c rest ih =>
      cases hb : c.type == n.type with
      | true => simp [findCondition, hb] at h
      | false =>
          simp only [findCondition, hb] at h
          simp only [List.cons_append, findCondition, hb]
          exact ih h

lemma findCondition_type (conds : List Condition) (t : String) (c : Condition)
    (h : findCondition conds t = some c) : (c.type == t) = true := by
  induction conds with
  | nil => simp [findCondition] at h
  | cons d rest ih =>
      cases hb : d.type == t with
      | true =>
          simp only [findCondition, hb, if_true, Option.some.injEq] at h
          rw [← h]
          exact hb
      | false =>
          simp only [findCondition, hb, if_false] at h
          exact ih h

lemma findCondition_replaceFirst (conds : List Condition) (t : String) (repl c : Condition)
    (hfind : findCondition conds t = some c) (ht : (repl.type == t) = true) :
    findCondition (replaceFirst conds t repl) t = some repl := by
  induction conds with
  | nil => simp [findCondition] at hfind
  | cons d rest ih =>
      cases hb : d.type == t with
      | true => simp [replaceFirst, hb, findCondition, ht]
      | false =>
          simp only [findCondition, hb, if_false] at hfind
          simp only [replaceFirst, hb, if_false, findCondition]
          exact ih hfind

lemma replaceFirst_self (conds : List Condition) (t : String) (c : Condition)
    (hfind : findCondition conds t = some c) : replaceFirst conds t c = conds := by
  induction conds with
  | nil => rfl
  | cons d rest ih =>
      cases hb : d.type == t with
      | true =>
          simp only [findCondition, hb, if_true, Option.some.injEq] at hfind
          subst hfind
          simp [replaceFirst, hb]
      | false =>
          simp only [findCondition, hb, if_false] at hfind
          simp [replaceFirst, hb, ih hfind]

lemma setStatusCondition_of_none (conds : List Condition) (n : Condition)
    (hf : findCondition conds n.type = none) :
    setStatusCondition conds n = (conds ++ [n], true) := by
  unfold setStatusCondition
  rw [hf]

lemma setStatusCondition_of_some (conds : List Condition) (n existing : Condition)
    (hf : findCondition conds n.type = some existing) :
    setStatusCondition conds n =
      (replaceFirst conds n.type (updatedCondition existing n), conditionChanged existing n) := by
  unfold setStatusCondition
  rw [hf]

lemma updatedCondition_self (u n : Condition)
    (h1 : u.status = n.status) (h2 : u.reason = n.reason) (h3 : u.message = n.message)
    (h4 : u.observedGeneration = n.observedGeneration) :
    updatedCondition u n = u := by
  unfold updatedCondition
  cases u
  simp_all

lemma conditionChanged_false (u n : Condition)
    (h1 : u.status = n.status) (h2 : u.reason = n.reason) (h3 : u.message = n.message)
    (h4 : u.observedGeneration = n.observedGeneration) :
    conditionChanged u n = false := by
  unfold conditionChanged
  simp [h1, h2, h3, h4]

lemma conditionChanged_true_of_meta (u n : Condition)
    (h : u.reason ≠ n.reason ∨ u.message ≠ n.message) :
    conditionChanged u n = true := by
  unfold conditionChanged
  rcases h with h | h <;> simp [bne_iff_ne, h]

lemma setStatusCondition_find (conds : List Condition) (n : Condition) :
    ∃ u, findCondition (setStatusCondition conds n).1 n.type = some u ∧
      u.status = n.status ∧ u.reason = n.reason ∧ u.message = n.message ∧
      u.observedGeneration = n.observedGeneration := by
  cases hf : findCondition conds n.type with
  | none =>
      rw [setStatusCondition_of_none conds n hf]
      exact ⟨n, findCondition_append_none conds n hf, rfl, rfl, rfl, rfl⟩
  | some existing =>
      rw [setStatusCondition_of_some conds n existing hf]
      refine ⟨updatedCondition existing n, ?_, rfl, rfl, rfl, rfl⟩
      exact findCondition_replaceFirst conds n.type _ existing hf
        (findCondition_type conds n.type existing hf)

lemma setStatusCondition_noop (conds : List Condition) (n u : Condition)
    (hfind : findCondition conds n.type = some u)
    (h1 : u.status = n.status) (h2 : u.reason = n.reason) (h3 : u.message = n.message)
    (h4 : u.observedGeneration = n.observedGeneration) :
    setStatusCondition conds n = (conds, false) := by
  rw [setStatusCondition_of_some conds n u hfind,
    updatedCondition_self u n h1 h2 h3 h4,
    replaceFirst_self conds n.type u hfind,
    conditionChanged_false u n h1 h2 h3 h4]

lemma setCondition_conditions (rules : List PhaseRule) (s : ManagerState)
    (t st rsn msg : String) (now : Nat) (perr : Option String) :
    (setCondition rules s t st rsn msg now perr).state.conditions =
      (setStatusCondition s.conditions
        { type := t, status := st, reason := rsn, message := msg,
          lastTransitionTime := now, observedGeneration := s.object.generation }).1 := by
  unfold setCondition applyChange
  split <;> rfl

lemma setCondition_generation (rules : List PhaseRule) (s : ManagerState)
    (t st rsn msg : String) (now : Nat) (perr : Option String) :
    (setCondition rules s t st rsn msg now perr).state.object.generation =
      s.object.generation := by
  unfold setCondition applyChange
  split <;> rfl

lemma applyChange_noop (rules : List PhaseRule) (s : ManagerState) (e : Option String) :
    applyChange rules s (s.conditions, false) e =
      { state := s, changed := false, patchCalled := false, err := none } :=
  rfl

lemma applyChange_invariant (rules : List PhaseRule) (s : ManagerState)
    (p : List Condition × Bool) (e : Option String) :
    ((applyChange rules s p e).changed = false → (applyChange rules s p e).state.object = s.object) ∧
    ((applyChange rules s p e).changed = true →
      (applyChange rules s p e).state.object.phase =
          computePhaseFromRules rules (applyChange rules s p e).state.conditions ∧
        ((applyChange rules s p e).state.object.phase = PhaseUnknown ∨
          ∃ r ∈ rules, (applyChange rules s p e).state.object.phase = r.phase) ∧
        (applyChange rules s p e).state.object.observedGeneration = s.object.generation) := by
  cases hp : p.2 with
  | false =>
      refine ⟨fun _ => ?_, fun h => absurd h (by simp [applyChange, hp])⟩
      simp [applyChange, hp]
  | true =>
      refine ⟨fun h => absurd h (by simp [applyChange, hp]), fun _ => ⟨?_, ?_, ?_⟩⟩
      · simp [applyChange, hp]
      · simpa [applyChange, hp] using computePhaseFromRules_mem rules p.1
      · simp [applyChange, hp]

lemma applyChange_state_indep (rules : List PhaseRule) (s : ManagerState)
    (p : List Condition × Bool) (e1 e2 : Option String) :
    (applyChange rules s p e1).state = (applyChange rules s p e2).state := by
  cases hp : p.2 <;> simp [applyChange, hp]

lemma applyChange_err (rules : List PhaseRule) (s : ManagerState)
    (p : List Condition × Bool) (e : Option String)
    (h : (applyChange rules s p e).changed = true) :
    (applyChange rules s p e).err = e := by
  cases hp : p.2 with
  | false => exact absurd h (by simp [applyChange, hp])
  | true => simp [applyChange, hp]

/-- C5: for every supplied condition list, an All rule built with zero
required conditions is satisfied, and an Any rule built with zero
required conditions is never satisfied. -/
theorem c5_empty_composites (p : String) (facts : List Condition) :
    (NewPhaseRule p (ConditionsAll [])).Satisfies facts = true ∧
    (NewPhaseRule p (ConditionsAny [])).Satisfies facts = false :=
  ⟨rfl, satisfiesAny_nil facts⟩

/-- C2 counterexample: an All rule with zero required conditions
evaluates to true on the nil condition list (a Go nil slice is
indistinguishable from an empty one in this code path, and the
repository test suite itself asserts this evaluation is true), whereas
the stated policy demands false for every rule shape on an absent
list. -/
theorem c2_cex_empty_all_on_nil :
    (NewPhaseRule "Ready" (ConditionsAll [])).Satisfies [] = true := by
  decide

/-- C2 (amended): the engine gives a nil condition list the same
semantics as an empty one rather than a distinct always-false signal:
on the nil/empty list every All rule with at least one required entry
returns false and every Any rule returns false, but an All rule with no
required entries still returns true. -/
theorem c2_nil_list_policy :
    (∀ p : String, (NewPhaseRule p (ConditionsAll [])).Satisfies [] = true) ∧
    (∀ (t : String) (ss : List String) (rest : List (String × List String)),
      satisfiesAll ((t, ss) :: rest) [] = false) ∧
    (∀ m : List (String × List String), satisfiesAny m [] = false) :=
  ⟨fun _ => rfl, fun _ _ _ => rfl, fun _ => rfl⟩

/-- C1 counterexample: a single-type All rule allowing statuses True
and Unknown, evaluated against the empty-but-present condition list,
returns false — the engine does not inject a synthetic Unknown
observation for the missing type. -/
theorem c1_cex_missing_not_synthesized :
    (NewPhaseRule "P"
      (ConditionsAll [ConditionEquals "A" [ConditionTrue, ConditionUnknown]])).Satisfies []
      = false := by
  decide

/-- C1 (amended): a condition type required by an All rule that is
absent from the supplied list makes the rule fail outright: whenever
some required entry has no condition of its type present, Satisfies is
false; in particular a leaf requiring True and a leaf requiring
True-or-Unknown both evaluate to false on the empty list.  Evaluation
is a pure function of the rule and the list and leaves the list of the
caller untouched. -/
theorem c1_missing_fact_fails (m : List (String × List String)) (facts : List Condition)
    (t : String) (ss : List String)
    (hmem : (t, ss) ∈ m) (habs : currentStatus facts t = none) :
    satisfiesAll m facts = false ∧
    (NewPhaseRule "P" (ConditionsAll [ConditionEquals "A" [ConditionTrue]])).Satisfies []
      = false ∧
    (NewPhaseRule "P"
      (ConditionsAll [ConditionEquals "A" [ConditionTrue, ConditionUnknown]])).Satisfies []
      = false := by
  refine ⟨?_, by decide, by decide⟩
  cases hb : satisfiesAll m facts with
  | false => rfl
  | true =>
      obtain ⟨st, hst, _⟩ := (satisfiesAll_eq_true_iff m facts).mp hb (t, ss) hmem
      rw [habs] at hst
      exact absurd hst (by simp)

/-- C1 witness: the amended theorem applied to a one-entry rule map and
the empty condition list. -/
theorem c1_missing_fact_fails_witness :
    satisfiesAll [("A", [ConditionTrue])] [] = false :=
  (c1_missing_fact_fails [("A", [ConditionTrue])] [] "A" [ConditionTrue]
    (by simp) rfl).1

/-- C4: evaluation over an ordered rule list returns the label of the
first rule whose predicate matches (so when two rules both match, the
earlier one wins), and returns the reserved label Unknown when no rule
matches, including on the empty rule list. -/
theorem c4_first_match_wins :
    (∀ (pre post : List PhaseRule) (r : PhaseRule) (facts : List Condition),
      (∀ q ∈ pre, q.Satisfies facts = false) → r.Satisfies facts = true →
      computePhaseFromRules (pre ++ r :: post) facts = r.phase) ∧
    (∀ (rules : List PhaseRule) (facts : List Condition),
      (∀ q ∈ rules, q.Satisfies facts = false) →
      computePhaseFromRules rules facts = PhaseUnknown) ∧
    (∀ facts : List Condition, computePhaseFromRules [] facts = PhaseUnknown) := by
  refine ⟨?_, computePhaseFromRules_none, fun _ => rfl⟩
  intro pre post r facts hpre hr
  induction pre with
  | nil => simp [computePhaseFromRules, hr]
  | cons q rest ih =>
      have hq := hpre q (List.mem_cons_self q rest)
      simp only [List.cons_append, computePhaseFromRules, hq, if_false]
      exact ih (fun x hx => hpre x (List.mem_cons_of_mem q hx))

/-- C4 witness: two rules that both match everything, labelled X and Y
in that order; evaluation returns X. -/
theorem c4_first_match_wins_witness :
    computePhaseFromRules [sampleRuleX, sampleRuleY] [] = "X" :=
  c4_first_match_wins.1 [] [sampleRuleY] sampleRuleX []
    (fun q hq => absurd hq (List.not_mem_nil q)) (by decide)

/-- C10: NewPhaseRule merges matchers into a per-type map, so the same
type listed across separate ConditionEquals groups builds the same rule
as a single group holding both statuses; an All rule is a conjunction
over the distinct referenced types, each type satisfied when its
current status is any one of the merged allowed statuses; in particular
All(A=True, A=False) is satisfied by A:True alone. -/
theorem c10_per_type_disjunction :
    (∀ (p t s1 s2 : String),
      NewPhaseRule p (ConditionsAll [ConditionEquals t [s1], ConditionEquals t [s2]]) =
        NewPhaseRule p (ConditionsAll [ConditionEquals t [s1, s2]])) ∧
    (∀ (m : List (String × List String)) (facts : List Condition),
      satisfiesAll m facts = true ↔
        ∀ pr ∈ m, ∃ st, currentStatus facts pr.1 = some st ∧ pr.2.contains st = true) ∧
    ((NewPhaseRule "P" (ConditionsAll [ConditionEquals "A" [ConditionTrue],
        ConditionEquals "A" [ConditionFalse]])).Satisfies
      [⟨"A", ConditionTrue, "r", "m", 0, 0⟩] = true) := by
  refine ⟨?_, satisfiesAll_eq_true_iff, by decide⟩
  intro p t s1 s2
  simp [NewPhaseRule, ConditionsAll, conditions, ConditionEquals, buildConditionMap,
    appendStatus, List.foldl]

/-- C10 witness: the merge equation at concrete strings. -/
theorem c10_per_type_disjunction_witness :
    NewPhaseRule "Q" (ConditionsAll [ConditionEquals "B" ["True"], ConditionEquals "B" ["False"]]) =
      NewPhaseRule "Q" (ConditionsAll [ConditionEquals "B" ["True", "False"]]) :=
  c10_per_type_disjunction.1 "Q" "B" "True" "False"

/-- C3: evaluation of SetConditions at a batch whose first entry
inserts a new condition and whose last entry is a no-op re-assertion of
an existing condition.  The per-entry changed flag is overwritten, not
accumulated, so the call reports unchanged and performs neither the
recompute nor the patch even though the condition list was modified;
reversing the two entries makes the very same batch report changed. -/
theorem c3_batch_overwrites_changed :
    (setConditions [] sampleBatchState
        [⟨"B", "True", "r", "m"⟩, ⟨"A", "True", "r", "m"⟩] 5 none).changed = false ∧
    (setConditions [] sampleBatchState
        [⟨"B", "True", "r", "m"⟩, ⟨"A", "True", "r", "m"⟩] 5 none).patchCalled = false ∧
    (setConditions [] sampleBatchState
        [⟨"B", "True", "r", "m"⟩, ⟨"A", "True", "r", "m"⟩] 5 none).state.conditions ≠
      sampleBatchState.conditions ∧
    (setConditions [] sampleBatchState
        [⟨"A", "True", "r", "m"⟩, ⟨"B", "True", "r", "m"⟩] 5 none).changed = true := by
  decide

/-- C6: when SetCondition is called with the same type and status as an
existing condition but a different reason or message, the call reports
changed, reaches the recompute-and-patch path (returning the patch
outcome), and the stored condition keeps its previous transition
timestamp while taking the new reason, message and observed
generation. -/
theorem c6_metadata_only_update (rules : List PhaseRule) (s : ManagerState)
    (t v rsn msg : String) (now : Nat) (perr : Option String) (c : Condition)
    (hfind : findCondition s.conditions t = some c)
    (hv : c.status = v)
    (hdiff : c.reason ≠ rsn ∨ c.message ≠ msg) :
    (setCondition rules s t v rsn msg now perr).changed = true ∧
    (setCondition rules s t v rsn msg now perr).patchCalled = true ∧
    (setCondition rules s t v rsn msg now perr).err = perr ∧
    findCondition (setCondition rules s t v rsn msg now perr).state.conditions t =
      some { c with reason := rsn, message := msg,
                    observedGeneration := s.object.generation } := by
  obtain ⟨ct, cs, cr, cm, cl, cg⟩ := c
  change cs = v at hv
  subst hv
  have htype : (ct == t) = true :=
    findCondition_type s.conditions t ⟨ct, cs, cr, cm, cl, cg⟩ hfind
  have hss :=
    setStatusCondition_of_some s.conditions
      { type := t, status := cs, reason := rsn, message := msg,
        lastTransitionTime := now, observedGeneration := s.object.generation }
      ⟨ct, cs, cr, cm, cl, cg⟩ hfind
  have hupd :
      updatedCondition ⟨ct, cs, cr, cm, cl, cg⟩
        { type := t, status := cs, reason := rsn, message := msg,
          lastTransitionTime := now, observedGeneration := s.object.generation } =
      ⟨ct, cs, rsn, msg, cl, s.object.generation⟩ := by
    simp [updatedCondition]
  have hch :
      conditionChanged ⟨ct, cs, cr, cm, cl, cg⟩
        { type := t, status := cs, reason := rsn, message := msg,
          lastTransitionTime := now, observedGeneration := s.object.generation } = true :=
    conditionChanged_true_of_meta _ _ hdiff
  have heq :
      setCondition rules s t cs rsn msg now perr =
        applyChange rules s
          (replaceFirst s.conditions t ⟨ct, cs, rsn, msg, cl, s.object.generation⟩, true)
          perr := by
    show applyChange rules s (setStatusCondition s.conditions
        { type := t, status := cs, reason := rsn, message := msg,
          lastTransitionTime := now, observedGeneration := s.object.generation }) perr = _
    rw [hss, hupd, hch]
  rw [heq]
  refine ⟨rfl, rfl, rfl, ?_⟩
  exact findCondition_replaceFirst s.conditions t
    ⟨ct, cs, rsn, msg, cl, s.object.generation⟩ ⟨ct, cs, cr, cm, cl, cg⟩ hfind htype

/-- C6 witness: a concrete metadata-only update on a one-condition
state — changed is reported, the patch is reached, and the stored
transition timestamp 7 is kept. -/
theorem c6_metadata_only_update_witness :
    (setCondition [] sampleMetaState "A" "True" "r2" "m" 9 none).changed = true ∧
    (setCondition [] sampleMetaState "A" "True" "r2" "m" 9 none).patchCalled = true ∧
    (setCondition [] sampleMetaState "A" "True" "r2" "m" 9 none).err = none ∧
    findCondition
        (setCondition [] sampleMetaState "A" "True" "r2" "m" 9 none).state.conditions "A" =
      some ⟨"A", "True", "r2", "m", 7, 0⟩ :=
  c6_metadata_only_update [] sampleMetaState "A" "True" "r2" "m" 9 none
    ⟨"A", "True", "r", "m", 7, 0⟩ rfl rfl (Or.inl (by decide))

/-- C7: calling SetCondition twice in succession with an identical
type, status, reason and message tuple (the manager never touches the
metadata generation between the calls) reports unchanged on the second
call, performs no recompute and no patch, returns nil, and leaves the
whole manager state exactly as after the first call. -/
theorem c7_set_condition_idempotent (rules : List PhaseRule) (s : ManagerState)
    (t v rsn msg : String) (now now2 : Nat) (perr perr2 : Option String) :
    (setCondition rules (setCondition rules s t v rsn msg now perr).state
        t v rsn msg now2 perr2).changed = false ∧
    (setCondition rules (setCondition rules s t v rsn msg now perr).state
        t v rsn msg now2 perr2).patchCalled = false ∧
    (setCondition rules (setCondition rules s t v rsn msg now perr).state
        t v rsn msg now2 perr2).err = none ∧
    (setCondition rules (setCondition rules s t v rsn msg now perr).state
        t v rsn msg now2 perr2).state = (setCondition rules s t v rsn msg now perr).state := by
  obtain ⟨u, hu, h1, h2, h3, h4⟩ :=
    setStatusCondition_find s.conditions
      { type := t, status := v, reason := rsn, message := msg,
        lastTransitionTime := now, observedGeneration := s.object.generation }
  have hfind2 :
      findCondition (setCondition rules s t v rsn msg now perr).state.conditions t = some u := by
    rw [setCondition_conditions rules s t v rsn msg now perr]
    exact hu
  have hnoop :=
    setStatusCondition_noop (setCondition rules s t v rsn msg now perr).state.conditions
      { type := t, status := v, reason := rsn, message := msg,
        lastTransitionTime := now2,
        observedGeneration := (setCondition rules s t v rsn msg now perr).state.object.generation }
      u hfind2 h1 h2 h3
      (h4.trans (setCondition_generation rules s t v rsn msg now perr).symm)
  have hsecond :
      setCondition rules (setCondition rules s t v rsn msg now perr).state t v rsn msg now2 perr2 =
        { state := (setCondition rules s t v rsn msg now perr).state,
          changed := false, patchCalled := false, err := none } := by
    show applyChange rules (setCondition rules s t v rsn msg now perr).state
        (setStatusCondition (setCondition rules s t v rsn msg now perr).state.conditions
          { type := t, status := v, reason := rsn, message := msg,
            lastTransitionTime := now2,
            observedGeneration :=
              (setCondition rules s t v rsn msg now perr).state.object.generation })
        perr2 = _
    rw [hnoop]
    exact applyChange_noop rules (setCondition rules s t v rsn msg now perr).state perr2
  rw [hsecond]
  exact ⟨rfl, rfl, rfl, rfl⟩

/-- C8: the phase and the observed generation of the object are written
only when the upsert actually changed the condition list — an unchanged
call leaves the object untouched — and when written, the phase is the
recomputed first-match label over the new condition list, hence always
either the label of some configured rule or the reserved Unknown, with
the observed generation set to the current metadata generation in the
same step; this holds for SetCondition and SetConditions alike. -/
theorem c8_label_generation_invariant (rules : List PhaseRule) (s : ManagerState)
    (t v rsn msg : String) (now : Nat) (perr : Option String) (inputs : List ConditionInput) :
    ((setCondition rules s t v rsn msg now perr).changed = false →
      (setCondition rules s t v rsn msg now perr).state.object = s.object) ∧
    ((setCondition rules s t v rsn msg now perr).changed = true →
      (setCondition rules s t v rsn msg now perr).state.object.phase =
          computePhaseFromRules rules (setCondition rules s t v rsn msg now perr).state.conditions ∧
        ((setCondition rules s t v rsn msg now perr).state.object.phase = PhaseUnknown ∨
          ∃ r ∈ rules, (setCondition rules s t v rsn msg now perr).state.object.phase = r.phase) ∧
        (setCondition rules s t v rsn msg now perr).state.object.observedGeneration =
          s.object.generation) ∧
    ((setConditions rules s inputs now perr).changed = false →
      (setConditions rules s inputs now perr).state.object = s.object) ∧
    ((setConditions rules s inputs now perr).changed = true →
      (setConditions rules s inputs now perr).state.object.phase =
          computePhaseFromRules rules (setConditions rules s inputs now perr).state.conditions ∧
        ((setConditions rules s inputs now perr).state.object.phase = PhaseUnknown ∨
          ∃ r ∈ rules, (setConditions rules s inputs now perr).state.object.phase = r.phase) ∧
        (setConditions rules s inputs now perr).state.object.observedGeneration =
          s.object.generation) := by
  refine ⟨?_, ?_, ?_, ?_⟩
  · exact (applyChange_invariant rules s _ perr).1
  · exact (applyChange_invariant rules s _ perr).2
  · exact (applyChange_invariant rules s _ perr).1
  · exact (applyChange_invariant rules s _ perr).2

/-- C8 witness: inserting a condition into the empty state writes the
observed generation together with the phase. -/
theorem c8_label_generation_invariant_witness :
    (setCondition [] sampleEmptyState "A" "True" "r" "m" 3 none).state.object.observedGeneration =
      sampleEmptyState.object.generation :=
  ((c8_label_generation_invariant [] sampleEmptyState "A" "True" "r" "m" 3 none []).2.1
    (by decide)).2.2

/-- C9: the outcome of the external status patch is returned to the
caller unmodified whenever the patch is reached, and the resulting
in-memory state — condition list, phase, observed generation — is
identical whether the patch fails or succeeds (no rollback on
persistence error); for SetCondition and SetConditions alike. -/
theorem c9_error_propagation (rules : List PhaseRule) (s : ManagerState)
    (t v rsn msg : String) (now : Nat) (e : String) (inputs : List ConditionInput) :
    ((setCondition rules s t v rsn msg now (some e)).state =
      (setCondition rules s t v rsn msg now none).state) ∧
    ((setCondition rules s t v rsn msg now (some e)).changed = true →
      (setCondition rules s t v rsn msg now (some e)).err = some e) ∧
    ((setConditions rules s inputs now (some e)).state =
      (setConditions rules s inputs now none).state) ∧
    ((setConditions rules s inputs now (some e)).changed = true →
      (setConditions rules s inputs now (some e)).err = some e) := by
  refine ⟨?_, ?_, ?_, ?_⟩
  · exact applyChange_state_indep rules s _ (some e) none
  · exact applyChange_err rules s _ (some e)
  · exact applyChange_state_indep rules s _ (some e) none
  · exact applyChange_err rules s _ (some e)

/-- C9 witness: an insert into the empty state with a failing patch
returns exactly that failure. -/
theorem c9_error_propagation_witness :
    (setCondition [] sampleEmptyState "A" "True" "r" "m" 3 (some "boom")).err = some "boom" :=
  (c9_error_propagation [] sampleEmptyState "A" "True" "r" "m" 3 "boom" []).2.1 (by decide)

end KPR
